import Mathlib

/-!
Verification of the anonymous-chat matchmaker core: a shallow embedding of
the SearchService (matcher), ChatService (chat event router), the
CircuitBreaker and the WebSocket chat handlers, together with theorems
about the matcher's candidate predicate, scoring and selection, the
search-record lifecycle invariant, message delivery and read receipts,
the breaker's failure counting, and the haversine distance.

Conventions of the embedding:
- Mongo ObjectIds are modelled as `Nat` (search records, users, chats) and
  their `toString` renderings as `String` where the code compares strings.
- JS numbers used for ages, ratings and distances are modelled as `ℚ`
  (exact arithmetic); the spherical distance computed by the store's
  geo query is an abstract parameter `dist : GeoPoint → GeoPoint → ℚ`
  in metres.
- The store is a list of records; `findOneAndUpdate` updates the first
  record matching the filter, `create` appends, `findByIdAndUpdate`
  updates by id. Fallible service calls return `Except String`.
- The haversine `calculateDistance` is embedded over `ℝ` with `Real.sin`,
  `Real.cos` and a JS-style `atan2`.
-/

inductive Gender
  | male
  | female
deriving DecidableEq

inductive DesiredGender
  | male
  | female
  | any
deriving DecidableEq

/-- Conversion of a concrete gender to the value stored in `desiredGender`
arrays, used when the query matches `search.gender` against them. -/
def DesiredGender.ofGender : Gender → DesiredGender
  | Gender.male => DesiredGender.male
  | Gender.female => DesiredGender.female

inductive SearchStatus
  | searching
  | matched
  | cancelled
  | expired
deriving DecidableEq

/-- Longitude-latitude pair, as stored in GeoJSON coordinate order. -/
abbrev GeoPoint := ℚ × ℚ

/-- Abstract spherical distance in metres, the quantity the store's
geo query compares against its distance bound. -/
abbrev DistFn := GeoPoint → GeoPoint → ℚ

structure MatchedWith where
  userId : Nat
  telegramId : String
  chatId : Nat
deriving DecidableEq

/-- Search record as stored in the `searches` collection. -/
structure SearchRec where
  id : Nat
  userId : Nat
  telegramId : String
  status : SearchStatus
  gender : Gender
  age : ℚ
  rating : ℚ
  desiredGender : List DesiredGender
  desiredAgeMin : ℚ
  desiredAgeMax : ℚ
  minAcceptableRating : ℚ
  useGeolocation : Bool
  location : Option GeoPoint
  maxDistance : Option ℚ
  matchedWith : Option MatchedWith
  createdAt : Nat
deriving DecidableEq

/-- Chat record as the matcher creates it (participants and liveness). -/
structure ChatRecS where
  id : Nat
  participants : List Nat
  chatType : String
  isActive : Bool
deriving DecidableEq

/-- State of the store as seen by the matcher. -/
structure DB where
  searches : List SearchRec
  chats : List ChatRecS
  nextChatId : Nat
deriving DecidableEq

/-- Client-supplied search criteria. -/
structure SearchCriteria where
  gender : Gender
  age : ℚ
  rating : Option ℚ
  desiredGender : List DesiredGender
  desiredAgeMin : ℚ
  desiredAgeMax : ℚ
  minAcceptableRating : Option ℚ
  useGeolocation : Bool
  location : Option GeoPoint
  maxDistance : Option ℚ
deriving DecidableEq

/-- Result object returned by `startSearch`. -/
structure SearchResultOut where
  status : SearchStatus
  userId : Nat
  telegramId : String
  matchedWith : Option MatchedWith
deriving DecidableEq

namespace SearchService

/-- Genders a candidate may have, computed from the searcher's
`desiredGender` array: `any` makes the set universal, otherwise the
specific entries are kept. -/
def gendersToMatch (dg : List DesiredGender) : List Gender :=
  if DesiredGender.any ∈ dg then [Gender.male, Gender.female]
  else dg.filterMap (fun g =>
    match g with
    | DesiredGender.male => some Gender.male
    | DesiredGender.female => some Gender.female
    | DesiredGender.any => none)

/-- The JS expression `search.maxDistance || 10`: missing or zero falls
back to 10 kilometres. -/
def effectiveMaxDistance (o : Option ℚ) : ℚ :=
  match o with
  | none => 10
  | some d => if d = 0 then 10 else d

/-- Geolocation part of the candidate query: with geolocation on and a
location present, the candidate must use geolocation, have a location,
and lie within the distance bound (kilometres times 1000); otherwise no
geographic constraint is added. -/
def geoCriteria (dist : DistFn) (s p : SearchRec) : Bool :=
  if s.useGeolocation then
    match s.location with
    | some l =>
      p.useGeolocation &&
        (match p.location with
         | some pl => decide (dist l pl ≤ effectiveMaxDistance s.maxDistance * 1000)
         | none => false)
    | none => true
  else true

/-- Candidate predicate of `findMatches`: the conjunction of the query
criteria built against the collection. -/
def matchesCriteria (dist : DistFn) (s p : SearchRec) : Bool :=
  decide (p.status = SearchStatus.searching) &&
  decide (p.userId ≠ s.userId) &&
  decide (p.gender ∈ gendersToMatch s.desiredGender) &&
  (decide (DesiredGender.ofGender s.gender ∈ p.desiredGender) ||
    decide (DesiredGender.any ∈ p.desiredGender)) &&
  decide (s.desiredAgeMin ≤ p.age) &&
  decide (p.age ≤ s.desiredAgeMax) &&
  decide (p.desiredAgeMin ≤ s.age) &&
  decide (s.age ≤ p.desiredAgeMax) &&
  (if s.minAcceptableRating > -1 then decide (s.minAcceptableRating ≤ p.rating) else true) &&
  geoCriteria dist s p

/-- Query for compatible candidates over the current `searches`
collection. -/
def findMatches (dist : DistFn) (searches : List SearchRec) (s : SearchRec) : List SearchRec :=
  searches.filter (fun p => matchesCriteria dist s p)

/-- Geolocation component of the match score: both sides use geolocation
and have locations, award `max 0 (30 - distance in km)`. -/
def geoScore (dist : DistFn) (s p : SearchRec) : ℚ :=
  match s.location, p.location with
  | some l, some pl =>
    if s.useGeolocation && p.useGeolocation then max 0 (30 - dist l pl / 1000) else 0
  | _, _ => 0

/-- Match score: rating proximity (up to 40), age proximity (up to 30)
and geographic proximity (up to 30). -/
def calculateMatchScore (dist : DistFn) (s p : SearchRec) : ℚ :=
  max 0 (40 - 2 * |s.rating - p.rating|) +
  max 0 (30 - 2 * |s.age - p.age|) +
  geoScore dist s p

/-- Reduction step of `selectBestMatch`: keep the accumulator unless the
current candidate scores strictly higher. -/
def selectStep (dist : DistFn) (s : SearchRec) (best cur : SearchRec) : SearchRec :=
  if calculateMatchScore dist s cur > calculateMatchScore dist s best then cur else best

/-- Selection of the best candidate: `reduce` over the whole array with
the first element as the initial accumulator. -/
def selectBestMatch (dist : DistFn) (s : SearchRec) (cands : List SearchRec) :
    Option SearchRec :=
  match cands with
  | [] => none
  | m :: _ => some (cands.foldl (selectStep dist s) m)

/-- Update of every record carrying the given id, the effect of
`findByIdAndUpdate`. -/
def updateById (i : Nat) (f : SearchRec → SearchRec) (rs : List SearchRec) :
    List SearchRec :=
  rs.map (fun r => if r.id = i then f r else r)

/-- Transition of a record to `matched`, populating `matchedWith` with
the partner and the created chat. -/
def setMatched (other : SearchRec) (chatId : Nat) (r : SearchRec) : SearchRec :=
  { r with
    status := SearchStatus.matched,
    matchedWith := some ⟨other.userId, other.telegramId, chatId⟩ }

/-- Commit path of `createMatch`: create the anonymous chat, then update
both search records to `matched`. -/
def createMatch (db : DB) (s1 s2 : SearchRec) : DB :=
  let chat : ChatRecS := ⟨db.nextChatId, [s1.userId, s2.userId], "anonymous", true⟩
  { db with
    chats := db.chats ++ [chat],
    nextChatId := db.nextChatId + 1,
    searches :=
      updateById s2.id (setMatched s1 chat.id)
        (updateById s1.id (setMatched s2 chat.id) db.searches) }

/-- Reset applied by the rollback path: back to `searching` with
`matchedWith` unset. -/
def resetSearching (r : SearchRec) : SearchRec :=
  { r with status := SearchStatus.searching, matchedWith := none }

/-- Rollback path of `createMatch`: both records are reset to
`searching` and their `matchedWith` unset (the chat is not deleted). -/
def rollbackMatch (i1 i2 : Nat) (rs : List SearchRec) : List SearchRec :=
  updateById i2 resetSearching (updateById i1 resetSearching rs)

/-- Per-record effect of the rollback on the collection: the two
updates-by-id composed. -/
def rollbackOne (i1 i2 : Nat) (r : SearchRec) : SearchRec :=
  if (if r.id = i1 then resetSearching r else r).id = i2 then
    resetSearching (if r.id = i1 then resetSearching r else r)
  else
    (if r.id = i1 then resetSearching r else r)

/-- Effect of `findOneAndUpdate({userId, status: searching},
{status: cancelled})`: the first matching record is transitioned, and the
updated document is returned. -/
def cancelFirstSearchingAux (u : Nat) : List SearchRec → Option SearchRec × List SearchRec
  | [] => (none, [])
  | r :: rs =>
    if r.userId = u ∧ r.status = SearchStatus.searching then
      (some { r with status := SearchStatus.cancelled },
       { r with status := SearchStatus.cancelled } :: rs)
    else
      let res := cancelFirstSearchingAux u rs
      (res.1, r :: res.2)

/-- Collection after cancelling the user's first `searching` record. -/
def cancelFirstSearching (u : Nat) (rs : List SearchRec) : List SearchRec :=
  (cancelFirstSearchingAux u rs).2

/-- Atomic `searching → cancelled` for the user's active record,
returning the updated document (or none). -/
def cancelSearch (u : Nat) (db : DB) : Option SearchRec × DB :=
  let res := cancelFirstSearchingAux u db.searches
  (res.1, { db with searches := res.2 })

/-- New search record built from the criteria: rating defaults to 0,
minimum acceptable rating to -1; location is stored only with
geolocation on, and the distance bound only with geolocation on,
defaulted to 10. -/
def mkSearchRec (id : Nat) (now : Nat) (userId : Nat) (telegramId : String)
    (c : SearchCriteria) : SearchRec :=
  { id := id,
    userId := userId,
    telegramId := telegramId,
    status := SearchStatus.searching,
    gender := c.gender,
    age := c.age,
    rating := c.rating.getD 0,
    desiredGender := c.desiredGender,
    desiredAgeMin := c.desiredAgeMin,
    desiredAgeMax := c.desiredAgeMax,
    minAcceptableRating := c.minAcceptableRating.getD (-1),
    useGeolocation := c.useGeolocation,
    location := if c.useGeolocation then c.location else none,
    maxDistance := if c.useGeolocation then some (effectiveMaxDistance c.maxDistance) else none,
    matchedWith := none,
    createdAt := now }

/-- The full `startSearch` procedure: cancel any previous search, insert
the new record, query candidates, create a match with the best candidate
when one exists, and build the returned result from the local record
object as created. -/
def startSearch (dist : DistFn) (db : DB) (newId : Nat) (now : Nat) (userId : Nat)
    (telegramId : String) (c : SearchCriteria) : SearchResultOut × DB :=
  let searches1 := cancelFirstSearching userId db.searches
  let search := mkSearchRec newId now userId telegramId c
  let db1 : DB := { db with searches := searches1 ++ [search] }
  let cands := findMatches dist db1.searches search
  let db2 :=
    match selectBestMatch dist search cands with
    | some best => createMatch db1 search best
    | none => db1
  ({ status := search.status,
     userId := search.userId,
     telegramId := search.telegramId,
     matchedWith := search.matchedWith }, db2)

/-- TTL expiry of the `searches` collection: documents are removed 1800
seconds after `createdAt`. -/
def expireSearches (now : Nat) (rs : List SearchRec) : List SearchRec :=
  rs.filter (fun r => decide (now < r.createdAt + 1800))

end SearchService

/-- Message stored inside a chat document; the sender id is kept in its
string rendering, as the service compares it with string ids. -/
structure Message where
  sender : String
  content : String
  timestamp : Nat
  isRead : Bool
deriving DecidableEq

/-- Chat record as the chat service sees it. -/
structure ChatRec where
  id : Nat
  participants : List String
  messages : List Message
  lastMessage : Option Message
  chatType : String
  isActive : Bool
  endedAt : Option Nat
  endedBy : Option String
  endReason : Option String
deriving DecidableEq

/-- Payload of the `chat:message` event broadcast to the chat room. -/
structure ChatMessagePayload where
  chatId : Nat
  content : String
  userId : String
deriving DecidableEq

/-- Payload of the `chat:read` event broadcast to the chat room. -/
structure ChatReadPayload where
  chatId : Nat
  userId : String
  timestamp : Nat
deriving DecidableEq

/-- Payload of the `chat:typing` event broadcast to the chat room. -/
structure ChatTypingPayload where
  chatId : Nat
  userId : String
deriving DecidableEq

namespace ChatService

/-- Lookup by id, the effect of `findById` over the collection. -/
def getChat (chats : List ChatRec) (chatId : Nat) : Option ChatRec :=
  chats.find? (fun c => decide (c.id = chatId))

/-- Replacement of the document carrying the given id after a `save`. -/
def saveChat (chats : List ChatRec) (chatId : Nat) (c2 : ChatRec) : List ChatRec :=
  chats.map (fun c => if c.id = chatId then c2 else c)

/-- Message send: requires the chat to exist and the caller to be a
participant, then appends the message, updates `lastMessage`, saves, and
emits the room payload carrying the caller's id. -/
def sendMessage (chats : List ChatRec) (chatId : Nat) (userId : String)
    (content : String) (now : Nat) :
    Except String (Message × List ChatRec × ChatMessagePayload) :=
  match getChat chats chatId with
  | none => Except.error "Chat not found"
  | some chat =>
    if chat.participants.any (fun p => decide (p = userId)) then
      let message : Message := ⟨userId, content, now, false⟩
      let chat2 := { chat with
        messages := chat.messages ++ [message],
        lastMessage := some message }
      Except.ok (message, saveChat chats chatId chat2, ⟨chatId, content, userId⟩)
    else
      Except.error "User is not a participant of this chat"

/-- Per-message update applied by `markAsRead`: messages at or before the
timestamp from a sender other than the caller become read. -/
def readUpdate (userId : String) (ts : Nat) (m : Message) : Message :=
  if m.timestamp ≤ ts ∧ m.sender ≠ userId then { m with isRead := true } else m

/-- Read receipt: requires the chat to exist, maps the read update over
all messages, saves, and emits the room payload. -/
def markAsRead (chats : List ChatRec) (chatId : Nat) (userId : String) (ts : Nat) :
    Except String (List ChatRec × ChatReadPayload) :=
  match getChat chats chatId with
  | none => Except.error "Chat not found"
  | some chat =>
    let chat2 := { chat with messages := chat.messages.map (readUpdate userId ts) }
    Except.ok (saveChat chats chatId chat2, ⟨chatId, userId, ts⟩)

end ChatService

/-- Authenticated user attached to a socket: the internal id and the
opaque external `telegramId`. -/
structure WSUser where
  id : Nat
  telegramId : String
deriving DecidableEq

namespace WebSocketManager

/-- Typing handler: broadcasts to the chat room a payload whose `userId`
field carries the sender's `telegramId`. -/
def handleChatTyping (u : WSUser) (chatId : Nat) : ChatTypingPayload :=
  ⟨chatId, u.telegramId⟩

/-- Message handler: forwards to the chat service with the sender's
internal id rendered as a string. -/
def handleChatMessage (chats : List ChatRec) (u : WSUser) (chatId : Nat)
    (content : String) (now : Nat) :
    Except String (Message × List ChatRec × ChatMessagePayload) :=
  ChatService.sendMessage chats chatId (toString u.id) content now

end WebSocketManager

inductive CircuitState
  | CLOSED
  | OPEN
  | HALF_OPEN
deriving DecidableEq

/-- Configuration of a circuit breaker. -/
structure CircuitBreakerOptions where
  failureThreshold : Nat
  resetTimeout : Nat
  halfOpenMaxAttempts : Nat
deriving DecidableEq

/-- Mutable state of a circuit breaker instance. -/
structure CircuitBreaker where
  options : CircuitBreakerOptions
  state : CircuitState
  failures : Nat
  lastFailureTime : Nat
  halfOpenAttempts : Nat
deriving DecidableEq

namespace CircuitBreaker

/-- Success handler: only in `HALF_OPEN` does anything change — the
attempt counter grows and, on reaching the limit, the breaker closes and
the failure counter resets. -/
def handleSuccess (b : CircuitBreaker) : CircuitBreaker :=
  if b.state = CircuitState.HALF_OPEN then
    let attempts := b.halfOpenAttempts + 1
    if attempts ≥ b.options.halfOpenMaxAttempts then
      { b with state := CircuitState.CLOSED, failures := 0, halfOpenAttempts := attempts }
    else
      { b with halfOpenAttempts := attempts }
  else b

/-- Failure handler: the counter grows and the failure time is recorded;
a closed breaker at the threshold opens, and a half-open breaker
reopens. -/
def handleFailure (b : CircuitBreaker) (now : Nat) : CircuitBreaker :=
  let b1 := { b with failures := b.failures + 1, lastFailureTime := now }
  let b2 :=
    if b1.state = CircuitState.CLOSED ∧ b1.failures ≥ b1.options.failureThreshold then
      { b1 with state := CircuitState.OPEN }
    else b1
  if b2.state = CircuitState.HALF_OPEN then
    { b2 with state := CircuitState.OPEN }
  else b2

/-- Outcome of one guarded operation, with the time at which a failure
is recorded. -/
inductive Outcome
  | success
  | failure (t : Nat)
deriving DecidableEq

/-- Application of one outcome to the breaker state. -/
def stepOutcome (b : CircuitBreaker) : Outcome → CircuitBreaker
  | Outcome.success => handleSuccess b
  | Outcome.failure t => handleFailure b t

/-- Breaker state after a sequence of outcomes. -/
def runOutcomes (b : CircuitBreaker) (tr : List Outcome) : CircuitBreaker :=
  tr.foldl stepOutcome b

/-- Number of failures in a sequence of outcomes. -/
def countFailures (tr : List Outcome) : Nat :=
  (tr.filter (fun o => match o with | Outcome.success => false | Outcome.failure _ => true)).length

end CircuitBreaker

noncomputable section Haversine

open Real

/-- JS `Math.atan2`, defined by quadrant case analysis over `arctan`. -/
noncomputable def atan2 (y x : ℝ) : ℝ :=
  if 0 < x then Real.arctan (y / x)
  else if x < 0 then
    (if 0 ≤ y then Real.arctan (y / x) + Real.pi else Real.arctan (y / x) - Real.pi)
  else
    (if 0 < y then Real.pi / 2 else if y < 0 then -(Real.pi / 2) else 0)

/-- Haversine distance in metres between two longitude-latitude pairs,
with Earth radius 6371000 and the argument of the square root clamped at
0. -/
noncomputable def calculateDistance (coord1 coord2 : ℝ × ℝ) : ℝ :=
  let R : ℝ := 6371000
  let phi1 := coord1.2 * Real.pi / 180
  let phi2 := coord2.2 * Real.pi / 180
  let dphi := (coord2.2 - coord1.2) * Real.pi / 180
  let dlam := (coord2.1 - coord1.1) * Real.pi / 180
  let a := Real.sin (dphi / 2) * Real.sin (dphi / 2) +
    Real.cos phi1 * Real.cos phi2 * Real.sin (dlam / 2) * Real.sin (dlam / 2)
  let c := 2 * atan2 (Real.sqrt a) (Real.sqrt (max 0 (1 - a)))
  R * c

end Haversine

/-- Invariant: for every user, at most one search record is in the
`searching` status — no two distinct list positions hold `searching`
records of the same user. -/
def UniqueSearching (rs : List SearchRec) : Prop :=
  rs.Pairwise (fun a b =>
    ¬(a.userId = b.userId ∧ a.status = SearchStatus.searching ∧
      b.status = SearchStatus.searching))

instance (rs : List SearchRec) : Decidable (UniqueSearching rs) := by
  unfold UniqueSearching
  infer_instance

/-- Membership of a gender in the specification's desired set: universal
when `any` is among the desired genders, otherwise membership in the
intersection of the desired genders with the concrete genders. -/
def inDesiredSet (s : SearchRec) (g : Gender) : Prop :=
  if DesiredGender.any ∈ s.desiredGender then True
  else DesiredGender.ofGender g ∈ s.desiredGender

/-- Candidate predicate as the specification words it: searching, a
different user, mutual gender desire, mutual age windows, the rating
threshold when one is set, and the geographic bound when the searcher
uses geolocation (with the stated default of 10 km). -/
def SpecCandidate (dist : DistFn) (s p : SearchRec) : Prop :=
  p.status = SearchStatus.searching ∧
  p.userId ≠ s.userId ∧
  inDesiredSet s p.gender ∧
  (DesiredGender.ofGender s.gender ∈ p.desiredGender ∨
    DesiredGender.any ∈ p.desiredGender) ∧
  s.desiredAgeMin ≤ p.age ∧ p.age ≤ s.desiredAgeMax ∧
  p.desiredAgeMin ≤ s.age ∧ s.age ≤ p.desiredAgeMax ∧
  (s.minAcceptableRating > -1 → s.minAcceptableRating ≤ p.rating) ∧
  (s.useGeolocation = true →
    p.useGeolocation = true ∧
    ∃ l pl, s.location = some l ∧ p.location = some pl ∧
      dist l pl / 1000 ≤ s.maxDistance.getD 10)

/-- Match score as the specification words it: rating proximity, age
proximity, and — when both sides use geolocation — distance proximity in
kilometres. -/
def specMatchScore (dist : DistFn) (s p : SearchRec) : ℚ :=
  max 0 (40 - 2 * |s.rating - p.rating|) +
  max 0 (30 - 2 * |s.age - p.age|) +
  (if s.useGeolocation = true ∧ p.useGeolocation = true then
    max 0 (30 - dist (s.location.getD (0, 0)) (p.location.getD (0, 0)) / 1000)
  else 0)

/-- Distance function used for concrete evaluations: every pair of
points is at distance zero. -/
def distZero : DistFn := fun _ _ => 0

/-- Concrete searching record: user 2, female, 24, seeking a male aged
20 to 30, no geolocation. -/
def candRec : SearchRec :=
  { id := 1, userId := 2, telegramId := "t2", status := SearchStatus.searching,
    gender := Gender.female, age := 24, rating := 0,
    desiredGender := [DesiredGender.male],
    desiredAgeMin := 20, desiredAgeMax := 30, minAcceptableRating := -1,
    useGeolocation := false, location := none, maxDistance := none,
    matchedWith := none, createdAt := 0 }

/-- Store holding only the candidate record. -/
def dbWithCand : DB := ⟨[candRec], [], 50⟩

/-- Concrete criteria: male, 25, seeking a female aged 20 to 30, no
geolocation. -/
def critMale : SearchCriteria :=
  { gender := Gender.male, age := 25, rating := none,
    desiredGender := [DesiredGender.female],
    desiredAgeMin := 20, desiredAgeMax := 30, minAcceptableRating := none,
    useGeolocation := false, location := none, maxDistance := none }

/-- Concrete record already matched, for the cancel-versus-match case. -/
def matchedRec : SearchRec :=
  { id := 1, userId := 5, telegramId := "t5", status := SearchStatus.matched,
    gender := Gender.male, age := 25, rating := 0,
    desiredGender := [DesiredGender.any],
    desiredAgeMin := 18, desiredAgeMax := 30, minAcceptableRating := -1,
    useGeolocation := false, location := none, maxDistance := none,
    matchedWith := some ⟨6, "t6", 9⟩, createdAt := 0 }

/-- Store holding only the matched record. -/
def dbMatched : DB := ⟨[matchedRec], [], 10⟩

/-- Concrete candidate with the later creation time, listed first. -/
def tieNewer : SearchRec :=
  { candRec with id := 3, userId := 3, telegramId := "t3", createdAt := 100 }

/-- Concrete candidate with the earlier creation time, listed second,
otherwise scoring identically. -/
def tieOlder : SearchRec :=
  { candRec with id := 4, userId := 4, telegramId := "t4", createdAt := 50 }

/-- Concrete searcher record used to score the tied candidates. -/
def tieSearcher : SearchRec :=
  SearchService.mkSearchRec 9 0 1 "t1" critMale

/-- Concrete active chat between users 7 and 8 with one unread message
from user 8. -/
def chatActive : ChatRec :=
  { id := 1, participants := ["7", "8"],
    messages := [⟨"8", "hello", 3, false⟩],
    lastMessage := some ⟨"8", "hello", 3, false⟩,
    chatType := "anonymous", isActive := true,
    endedAt := none, endedBy := none, endReason := none }

/-- Concrete chat that has already ended. -/
def chatEnded : ChatRec :=
  { id := 2, participants := ["7", "8"], messages := [],
    lastMessage := none, chatType := "anonymous", isActive := false,
    endedAt := some 4, endedBy := some "7", endReason := none }

/-- Concrete socket user: internal id 7, external telegram id "tg7". -/
def wsUser : WSUser := ⟨7, "tg7"⟩

/-- Concrete breaker configuration with threshold 2 used for
evaluation. -/
def breakerTwo : CircuitBreaker :=
  { options := ⟨2, 60000, 3⟩, state := CircuitState.CLOSED,
    failures := 0, lastFailureTime := 0, halfOpenAttempts := 0 }

lemma handleSuccess_closed (b : CircuitBreaker) (h : b.state = CircuitState.CLOSED) :
    CircuitBreaker.handleSuccess b = b := by
  simp [CircuitBreaker.handleSuccess, h]

lemma countFailures_cons_success (tr : List CircuitBreaker.Outcome) :
    CircuitBreaker.countFailures (CircuitBreaker.Outcome.success :: tr) =
      CircuitBreaker.countFailures tr := rfl

lemma countFailures_cons_failure (t : Nat) (tr : List CircuitBreaker.Outcome) :
    CircuitBreaker.countFailures (CircuitBreaker.Outcome.failure t :: tr) =
      CircuitBreaker.countFailures tr + 1 := by
  simp [CircuitBreaker.countFailures, List.filter]

lemma runOutcomes_cons (b : CircuitBreaker) (o : CircuitBreaker.Outcome)
    (tr : List CircuitBreaker.Outcome) :
    CircuitBreaker.runOutcomes b (o :: tr) =
      CircuitBreaker.runOutcomes (CircuitBreaker.stepOutcome b o) tr := rfl

lemma handleFailure_closed_lt (b : CircuitBreaker) (t : Nat)
    (h : b.state = CircuitState.CLOSED)
    (hlt : b.failures + 1 < b.options.failureThreshold) :
    CircuitBreaker.handleFailure b t =
      { b with failures := b.failures + 1, lastFailureTime := t } := by
  simp [CircuitBreaker.handleFailure, h,
    show ¬(b.failures + 1 ≥ b.options.failureThreshold) from by omega]

lemma handleFailure_opens (b : CircuitBreaker) (t : Nat)
    (h : b.state = CircuitState.CLOSED)
    (hge : b.failures + 1 ≥ b.options.failureThreshold) :
    (CircuitBreaker.handleFailure b t).state = CircuitState.OPEN := by
  simp [CircuitBreaker.handleFailure, h, hge]

lemma runOutcomes_closed (tr : List CircuitBreaker.Outcome) :
    ∀ b : CircuitBreaker, b.state = CircuitState.CLOSED →
      b.failures + CircuitBreaker.countFailures tr < b.options.failureThreshold →
      (CircuitBreaker.runOutcomes b tr).state = CircuitState.CLOSED ∧
      (CircuitBreaker.runOutcomes b tr).failures =
        b.failures + CircuitBreaker.countFailures tr ∧
      (CircuitBreaker.runOutcomes b tr).options = b.options := by
  induction tr with
  | nil =>
    intro b h _
    simp [CircuitBreaker.runOutcomes, CircuitBreaker.countFailures, h]
  | cons o tr ih =>
    intro b h hlt
    cases o with
    | success =>
      rw [runOutcomes_cons]
      rw [countFailures_cons_success] at hlt ⊢
      have hs : CircuitBreaker.stepOutcome b CircuitBreaker.Outcome.success = b :=
        handleSuccess_closed b h
      rw [hs]
      exact ih b h hlt
    | failure t =>
      rw [runOutcomes_cons]
      rw [countFailures_cons_failure] at hlt ⊢
      have hstep : CircuitBreaker.stepOutcome b (CircuitBreaker.Outcome.failure t) =
          { b with failures := b.failures + 1, lastFailureTime := t } :=
        handleFailure_closed_lt b t h (by omega)
      rw [hstep]
      have := ih { b with failures := b.failures + 1, lastFailureTime := t } h (by
        show b.failures + 1 + CircuitBreaker.countFailures tr < b.options.failureThreshold
        omega)
      refine ⟨this.1, ?_, this.2.2⟩
      rw [this.2.1]
      show b.failures + 1 + CircuitBreaker.countFailures tr =
        b.failures + (CircuitBreaker.countFailures tr + 1)
      omega

/-- C9: the failure counter is reset only by the HALF_OPEN to CLOSED
transition; a success while CLOSED changes nothing, every failure
increments the counter, and from a fresh closed breaker any outcome
sequence with fewer failures than the threshold leaves the breaker
CLOSED with the counter equal to the number of failures seen, while one
more failure — regardless of interleaved successes — opens it. -/
theorem circuitBreaker_counts_failures_across_successes :
    (∀ b : CircuitBreaker, b.state = CircuitState.CLOSED →
      CircuitBreaker.handleSuccess b = b) ∧
    (∀ b : CircuitBreaker,
      (CircuitBreaker.handleSuccess b).failures ≠ b.failures →
        b.state = CircuitState.HALF_OPEN ∧
        (CircuitBreaker.handleSuccess b).state = CircuitState.CLOSED ∧
        (CircuitBreaker.handleSuccess b).failures = 0) ∧
    (∀ (b : CircuitBreaker) (t : Nat),
      (CircuitBreaker.handleFailure b t).failures = b.failures + 1) ∧
    (∀ (tr : List CircuitBreaker.Outcome) (b : CircuitBreaker),
      b.state = CircuitState.CLOSED →
      b.failures + CircuitBreaker.countFailures tr < b.options.failureThreshold →
      (CircuitBreaker.runOutcomes b tr).state = CircuitState.CLOSED ∧
      (CircuitBreaker.runOutcomes b tr).failures =
        b.failures + CircuitBreaker.countFailures tr) ∧
    (∀ (tr : List CircuitBreaker.Outcome) (b : CircuitBreaker) (t : Nat),
      b.state = CircuitState.CLOSED → b.failures = 0 →
      CircuitBreaker.countFailures tr + 1 = b.options.failureThreshold →
      (CircuitBreaker.handleFailure (CircuitBreaker.runOutcomes b tr) t).state =
        CircuitState.OPEN) := by
  refine ⟨handleSuccess_closed, ?_, ?_, ?_, ?_⟩
  · intro b hne
    by_cases h : b.state = CircuitState.HALF_OPEN
    · refine ⟨h, ?_⟩
      by_cases ha : b.halfOpenAttempts + 1 ≥ b.options.halfOpenMaxAttempts
      · simp [CircuitBreaker.handleSuccess, h, ha]
      · exfalso
        apply hne
        simp [CircuitBreaker.handleSuccess, h, ha]
    · exfalso
      apply hne
      simp [CircuitBreaker.handleSuccess, h]
  · intro b t
    simp only [CircuitBreaker.handleFailure]
    split
    · split <;> rfl
    · split <;> rfl
  · intro tr b h hlt
    exact ⟨(runOutcomes_closed tr b h hlt).1, (runOutcomes_closed tr b h hlt).2.1⟩
  · intro tr b t h h0 hth
    have hrun := runOutcomes_closed tr b h (by omega)
    apply handleFailure_opens _ t hrun.1
    rw [hrun.2.1, hrun.2.2, h0]
    omega

/-- Witness for C9: a concrete breaker with threshold 2 stays closed
after one failure and one success, and the next failure opens it. -/
theorem circuitBreaker_counts_failures_across_successes_witness :
    (breakerTwo.state = CircuitState.CLOSED ∧
      breakerTwo.failures +
        CircuitBreaker.countFailures
          [CircuitBreaker.Outcome.failure 1, CircuitBreaker.Outcome.success] <
        breakerTwo.options.failureThreshold ∧
      (CircuitBreaker.runOutcomes breakerTwo
        [CircuitBreaker.Outcome.failure 1, CircuitBreaker.Outcome.success]).state =
        CircuitState.CLOSED) ∧
    (CircuitBreaker.handleFailure
      (CircuitBreaker.runOutcomes breakerTwo
        [CircuitBreaker.Outcome.failure 1, CircuitBreaker.Outcome.success]) 2).state =
      CircuitState.OPEN := by
  constructor
  · refine ⟨by decide, by decide, ?_⟩
    exact (circuitBreaker_counts_failures_across_successes.2.2.2.1
      [CircuitBreaker.Outcome.failure 1, CircuitBreaker.Outcome.success]
      breakerTwo (by decide) (by decide)).1
  · exact circuitBreaker_counts_failures_across_successes.2.2.2.2
      [CircuitBreaker.Outcome.failure 1, CircuitBreaker.Outcome.success]
      breakerTwo 2 (by decide) (by decide) (by decide)

lemma sendMessage_ok_inv (chats : List ChatRec) (cid : Nat) (uid content : String)
    (now : Nat) (m : Message) (cs : List ChatRec) (p : ChatMessagePayload)
    (h : ChatService.sendMessage chats cid uid content now = Except.ok (m, cs, p)) :
    p = ⟨cid, content, uid⟩ ∧ m = ⟨uid, content, now, false⟩ := by
  cases hg : ChatService.getChat chats cid with
  | none => simp [ChatService.sendMessage, hg] at h
  | some chat =>
    by_cases hp : (chat.participants.any fun q => decide (q = uid)) = true
    · simp [ChatService.sendMessage, hg, hp] at h
      exact ⟨h.2.2.symm, h.1.symm⟩
    · simp [ChatService.sendMessage, hg, hp] at h

/-- C10: the room payload of a `chat:typing` event carries the sender's
`telegramId`, while the room payload of a `chat:message` event carries
the sender's internal user id rendered as a string; whenever the two
identifiers differ as strings, the two event kinds expose different
identities for the same sender. -/
theorem chatTyping_and_chatMessage_expose_different_identities
    (u : WSUser) (chats : List ChatRec) (chatId : Nat) (content : String) (now : Nat) :
    (WebSocketManager.handleChatTyping u chatId).userId = u.telegramId ∧
    (∀ (m : Message) (cs : List ChatRec) (p : ChatMessagePayload),
      WebSocketManager.handleChatMessage chats u chatId content now =
        Except.ok (m, cs, p) → p.userId = toString u.id) ∧
    (u.telegramId ≠ toString u.id →
      ∀ (m : Message) (cs : List ChatRec) (p : ChatMessagePayload),
        WebSocketManager.handleChatMessage chats u chatId content now =
          Except.ok (m, cs, p) →
        (WebSocketManager.handleChatTyping u chatId).userId ≠ p.userId) := by
  refine ⟨rfl, ?_, ?_⟩
  · intro m cs p h
    have := (sendMessage_ok_inv chats chatId (toString u.id) content now m cs p h).1
    rw [this]
  · intro hne m cs p h
    have := (sendMessage_ok_inv chats chatId (toString u.id) content now m cs p h).1
    rw [this]
    exact hne

/-- Witness for C10: user 7 with telegram id "tg7" sends into the active
chat; the typing payload carries "tg7" while the message payload carries
"7". -/
theorem chatTyping_and_chatMessage_expose_different_identities_witness :
    (WebSocketManager.handleChatTyping wsUser 1).userId = "tg7" ∧
    (∀ (m : Message) (cs : List ChatRec) (p : ChatMessagePayload),
      WebSocketManager.handleChatMessage [chatActive] wsUser 1 "hi" 5 =
        Except.ok (m, cs, p) → p.userId = toString wsUser.id) ∧
    ("tg7" ≠ toString wsUser.id →
      ∀ (m : Message) (cs : List ChatRec) (p : ChatMessagePayload),
        WebSocketManager.handleChatMessage [chatActive] wsUser 1 "hi" 5 =
          Except.ok (m, cs, p) →
        (WebSocketManager.handleChatTyping wsUser 1).userId ≠ p.userId) :=
  chatTyping_and_chatMessage_expose_different_identities wsUser [chatActive] 1 "hi" 5

lemma atan2_bounds (y x : ℝ) (hy : 0 ≤ y) (hx : 0 ≤ x) :
    0 ≤ atan2 y x ∧ atan2 y x ≤ Real.pi / 2 := by
  unfold atan2
  rcases lt_or_eq_of_le hx with hx1 | hx1
  · rw [if_pos hx1]
    refine ⟨?_, (Real.arctan_lt_pi_div_two _).le⟩
    have h0 : Real.arctan 0 ≤ Real.arctan (y / x) :=
      Real.arctan_strictMono.monotone (by positivity)
    rwa [Real.arctan_zero] at h0
  · have hx0 : ¬ 0 < x := by rw [← hx1]; exact lt_irrefl 0
    have hx2 : ¬ x < 0 := by rw [← hx1]; exact lt_irrefl 0
    rw [if_neg hx0, if_neg hx2]
    rcases lt_or_eq_of_le hy with hy1 | hy1
    · rw [if_pos hy1]
      exact ⟨by positivity, le_refl _⟩
    · have hy0 : ¬ 0 < y := by rw [← hy1]; exact lt_irrefl 0
      have hy2 : ¬ y < 0 := by rw [← hy1]; exact lt_irrefl 0
      rw [if_neg hy0, if_neg hy2]
      exact ⟨le_refl _, by positivity⟩

/-- C8: the haversine distance with Earth radius 6371000 and the clamp
of `1 - a` at 0 is, for every pair of coordinate pairs, a well-defined
non-negative real number, bounded by half the Earth circumference. -/
theorem calculateDistance_nonneg_total (c1 c2 : ℝ × ℝ) :
    0 ≤ calculateDistance c1 c2 ∧ calculateDistance c1 c2 ≤ 6371000 * Real.pi := by
  unfold calculateDistance
  have hb := atan2_bounds
    (Real.sqrt ((Real.sin ((c2.2 - c1.2) * Real.pi / 180 / 2) *
      Real.sin ((c2.2 - c1.2) * Real.pi / 180 / 2) +
      Real.cos (c1.2 * Real.pi / 180) * Real.cos (c2.2 * Real.pi / 180) *
      Real.sin ((c2.1 - c1.1) * Real.pi / 180 / 2) *
      Real.sin ((c2.1 - c1.1) * Real.pi / 180 / 2))))
    (Real.sqrt (max 0 (1 - (Real.sin ((c2.2 - c1.2) * Real.pi / 180 / 2) *
      Real.sin ((c2.2 - c1.2) * Real.pi / 180 / 2) +
      Real.cos (c1.2 * Real.pi / 180) * Real.cos (c2.2 * Real.pi / 180) *
      Real.sin ((c2.1 - c1.1) * Real.pi / 180 / 2) *
      Real.sin ((c2.1 - c1.1) * Real.pi / 180 / 2)))))
    (Real.sqrt_nonneg _) (Real.sqrt_nonneg _)
  constructor
  · have := hb.1
    nlinarith [Real.pi_pos]
  · have := hb.2
    nlinarith [Real.pi_pos]

/-- C7: a read receipt marks exactly the messages that were already read
or were sent by the other participant at or before the given timestamp;
the sender, content and timestamp of every message, the other fields of
the chat, and every other chat are unchanged. -/
theorem markAsRead_marks_iff (chats : List ChatRec) (chatId : Nat) (caller : String)
    (ts : Nat) (chat : ChatRec)
    (hfind : ChatService.getChat chats chatId = some chat)
    (_hpart : caller ∈ chat.participants) :
    ChatService.markAsRead chats chatId caller ts =
      Except.ok (ChatService.saveChat chats chatId
        { chat with messages := chat.messages.map (ChatService.readUpdate caller ts) },
        ⟨chatId, caller, ts⟩) ∧
    (∀ m : Message,
      ((ChatService.readUpdate caller ts m).isRead = true ↔
        (m.isRead = true ∨ (m.sender ≠ caller ∧ m.timestamp ≤ ts))) ∧
      (ChatService.readUpdate caller ts m).sender = m.sender ∧
      (ChatService.readUpdate caller ts m).content = m.content ∧
      (ChatService.readUpdate caller ts m).timestamp = m.timestamp) ∧
    (∀ c ∈ chats, c.id ≠ chatId →
      c ∈ ChatService.saveChat chats chatId
        { chat with messages := chat.messages.map (ChatService.readUpdate caller ts) }) := by
  refine ⟨?_, ?_, ?_⟩
  · simp [ChatService.markAsRead, hfind]
  · intro m
    unfold ChatService.readUpdate
    by_cases hc : m.timestamp ≤ ts ∧ m.sender ≠ caller
    · rw [if_pos hc]
      exact ⟨⟨fun _ => Or.inr ⟨hc.2, hc.1⟩, fun _ => rfl⟩, rfl, rfl, rfl⟩
    · rw [if_neg hc]
      exact ⟨⟨Or.inl, fun h => h.elim id (fun hx => absurd ⟨hx.2, hx.1⟩ hc)⟩, rfl, rfl, rfl⟩
  · intro c hmem hne
    unfold ChatService.saveChat
    refine List.mem_map.mpr ⟨c, hmem, ?_⟩
    simp [hne]

/-- Witness for C7: participant "7" marks the active chat as read at
time 5. -/
theorem markAsRead_marks_iff_witness :
    ChatService.getChat [chatActive] 1 = some chatActive ∧
    "7" ∈ chatActive.participants ∧
    ChatService.markAsRead [chatActive] 1 "7" 5 =
      Except.ok (ChatService.saveChat [chatActive] 1
        { chatActive with
          messages := chatActive.messages.map (ChatService.readUpdate "7" 5) },
        ⟨1, "7", 5⟩) :=
  ⟨rfl, by decide,
    (markAsRead_marks_iff [chatActive] 1 "7" 5 chatActive rfl (by decide)).1⟩

/-- Counterexample for C5: the service appends to a chat whose
`isActive` is false, and also appends an empty message, so the claimed
preconditions `isActive` and `content ≠ ""` are not enforced. -/
theorem sendMessage_ignores_isActive_and_empty_cex :
    chatEnded.isActive = false ∧
    ChatService.sendMessage [chatEnded] 2 "7" "hi" 5 =
      Except.ok (⟨"7", "hi", 5, false⟩,
        [{ chatEnded with
            messages := [⟨"7", "hi", 5, false⟩],
            lastMessage := some ⟨"7", "hi", 5, false⟩ }],
        ⟨2, "hi", "7"⟩) ∧
    ChatService.sendMessage [chatActive] 1 "7" "" 5 =
      Except.ok (⟨"7", "", 5, false⟩,
        [{ chatActive with
            messages := chatActive.messages ++ [⟨"7", "", 5, false⟩],
            lastMessage := some ⟨"7", "", 5, false⟩ }],
        ⟨1, "", "7"⟩) :=
  ⟨rfl, rfl, rfl⟩

lemma any_eq_mem (l : List String) (u : String) :
    (l.any fun p => decide (p = u)) = true ↔ u ∈ l := by
  simp [List.any_eq_true]

/-- C5 amended: `sendMessage` appends the message, updates `lastMessage`
and produces the room payload carrying the sender's id exactly when the
chat exists and the caller is a participant; the chat's `isActive` flag
and emptiness of the content are not checked; a missing chat or a
non-participant caller yields an error to the caller and no new state. -/
theorem sendMessage_appends_iff (chats : List ChatRec) (chatId : Nat)
    (userId content : String) (now : Nat) :
    ((∃ m cs p, ChatService.sendMessage chats chatId userId content now =
        Except.ok (m, cs, p)) ↔
      (∃ chat, ChatService.getChat chats chatId = some chat ∧
        userId ∈ chat.participants)) ∧
    (∀ chat, ChatService.getChat chats chatId = some chat →
      userId ∈ chat.participants →
      ChatService.sendMessage chats chatId userId content now =
        Except.ok (⟨userId, content, now, false⟩,
          ChatService.saveChat chats chatId
            { chat with
              messages := chat.messages ++ [⟨userId, content, now, false⟩],
              lastMessage := some ⟨userId, content, now, false⟩ },
          ⟨chatId, content, userId⟩)) ∧
    (ChatService.getChat chats chatId = none →
      ChatService.sendMessage chats chatId userId content now =
        Except.error "Chat not found") ∧
    (∀ chat, ChatService.getChat chats chatId = some chat →
      userId ∉ chat.participants →
      ChatService.sendMessage chats chatId userId content now =
        Except.error "User is not a participant of this chat") := by
  refine ⟨⟨?_, ?_⟩, ?_, ?_, ?_⟩
  · rintro ⟨m, cs, p, h⟩
    cases hg : ChatService.getChat chats chatId with
    | none => simp [ChatService.sendMessage, hg] at h
    | some chat =>
      by_cases hp : (chat.participants.any fun q => decide (q = userId)) = true
      · exact ⟨chat, rfl, (any_eq_mem _ _).mp hp⟩
      · simp [ChatService.sendMessage, hg, hp] at h
  · rintro ⟨chat, hg, hmem⟩
    refine ⟨⟨userId, content, now, false⟩,
      ChatService.saveChat chats chatId
        { chat with
          messages := chat.messages ++ [⟨userId, content, now, false⟩],
          lastMessage := some ⟨userId, content, now, false⟩ },
      ⟨chatId, content, userId⟩, ?_⟩
    simp [ChatService.sendMessage, hg, (any_eq_mem _ _).mpr hmem]
  · intro chat hg hmem
    simp [ChatService.sendMessage, hg, (any_eq_mem _ _).mpr hmem]
  · intro hg
    simp [ChatService.sendMessage, hg]
  · intro chat hg hmem
    have : ¬ (chat.participants.any fun q => decide (q = userId)) = true := by
      rw [any_eq_mem]
      exact hmem
    simp [ChatService.sendMessage, hg, this]

/-- Witness for C5 amended: participant "7" sends into the active chat;
the success branch applies and the outsider "9" is refused. -/
theorem sendMessage_appends_iff_witness :
    ChatService.getChat [chatActive] 1 = some chatActive ∧
    "7" ∈ chatActive.participants ∧
    ChatService.sendMessage [chatActive] 1 "7" "hi" 5 =
      Except.ok (⟨"7", "hi", 5, false⟩,
        ChatService.saveChat [chatActive] 1
          { chatActive with
            messages := chatActive.messages ++ [⟨"7", "hi", 5, false⟩],
            lastMessage := some ⟨"7", "hi", 5, false⟩ },
        ⟨1, "hi", "7"⟩) ∧
    ChatService.sendMessage [chatActive] 1 "9" "hi" 5 =
      Except.error "User is not a participant of this chat" :=
  ⟨rfl, by decide,
    (sendMessage_appends_iff [chatActive] 1 "7" "hi" 5).2.1 chatActive rfl (by decide),
    (sendMessage_appends_iff [chatActive] 1 "9" "hi" 5).2.2.2 chatActive rfl (by decide)⟩

lemma cancelSearch_eq (u : Nat) (db : DB) :
    SearchService.cancelSearch u db =
      ((SearchService.cancelFirstSearchingAux u db.searches).1,
       { db with searches := (SearchService.cancelFirstSearchingAux u db.searches).2 }) := rfl

lemma cancelFirstAux_none (u : Nat) (rs : List SearchRec)
    (h : ∀ r ∈ rs, ¬(r.userId = u ∧ r.status = SearchStatus.searching)) :
    SearchService.cancelFirstSearchingAux u rs = (none, rs) := by
  induction rs with
  | nil => rfl
  | cons r rs ih =>
    rw [SearchService.cancelFirstSearchingAux,
      if_neg (h r (List.mem_cons_self r rs)),
      ih (fun q hq => h q (List.mem_cons_of_mem r hq))]

lemma cancelFirst_no_more (u : Nat) (rs : List SearchRec) (hinv : UniqueSearching rs) :
    ∀ b ∈ SearchService.cancelFirstSearching u rs,
      ¬(b.userId = u ∧ b.status = SearchStatus.searching) := by
  induction rs with
  | nil => intro b hb; cases hb
  | cons r rs ih =>
    rcases List.pairwise_cons.mp hinv with ⟨hrel, htail⟩
    intro b hb
    by_cases hc : r.userId = u ∧ r.status = SearchStatus.searching
    · rw [SearchService.cancelFirstSearching,
        SearchService.cancelFirstSearchingAux, if_pos hc] at hb
      rcases List.mem_cons.mp hb with hb1 | hb1
      · rw [hb1]
        rintro ⟨_, hs⟩
        exact absurd hs (by simp)
      · rintro ⟨hbu, hbs⟩
        exact hrel b hb1 ⟨by rw [hc.1, hbu], hc.2, hbs⟩
    · rw [SearchService.cancelFirstSearching,
        SearchService.cancelFirstSearchingAux, if_neg hc] at hb
      rcases List.mem_cons.mp hb with hb1 | hb1
      · rw [hb1]; exact hc
      · exact ih htail b hb1

lemma cancelFirstAux_found (u : Nat) (l1 : List SearchRec) (r : SearchRec)
    (l2 : List SearchRec)
    (h1 : ∀ q ∈ l1, ¬(q.userId = u ∧ q.status = SearchStatus.searching))
    (hu : r.userId = u) (hs : r.status = SearchStatus.searching) :
    SearchService.cancelFirstSearchingAux u (l1 ++ r :: l2) =
      (some { r with status := SearchStatus.cancelled },
       l1 ++ { r with status := SearchStatus.cancelled } :: l2) := by
  induction l1 with
  | nil =>
    rw [List.nil_append, SearchService.cancelFirstSearchingAux, if_pos ⟨hu, hs⟩,
      List.nil_append]
  | cons q l1 ih =>
    rw [List.cons_append, SearchService.cancelFirstSearchingAux,
      if_neg (h1 q (List.mem_cons_self q l1)),
      ih (fun x hx => h1 x (List.mem_cons_of_mem q hx)), List.cons_append]

/-- Counterexample for C6: with the user's record already `matched`,
`cancelSearch` returns `none` — not the existing `matchedWith` — though
it is indeed a no-op on the store. -/
theorem cancelSearch_matched_returns_none_cex :
    matchedRec.status = SearchStatus.matched ∧
    matchedRec.matchedWith = some ⟨6, "t6", 9⟩ ∧
    SearchService.cancelSearch 5 dbMatched = (none, dbMatched) :=
  ⟨rfl, rfl, rfl⟩

/-- C6 amended: `cancelSearch` transitions exactly the user's first
`searching` record to `cancelled`, leaving every other record in place;
it is a no-op returning `none` when the user has no `searching` record —
in particular a second consecutive call, and the call on an
already-`matched` record, are no-ops returning `none` rather than the
existing `matchedWith`. -/
theorem cancelSearch_cancels_first_and_idempotent (db : DB) (u : Nat) :
    ((∀ r ∈ db.searches, ¬(r.userId = u ∧ r.status = SearchStatus.searching)) →
      SearchService.cancelSearch u db = (none, db)) ∧
    (UniqueSearching db.searches →
      SearchService.cancelSearch u (SearchService.cancelSearch u db).2 =
        (none, (SearchService.cancelSearch u db).2)) ∧
    (∀ l1 r l2, db.searches = l1 ++ r :: l2 →
      (∀ q ∈ l1, ¬(q.userId = u ∧ q.status = SearchStatus.searching)) →
      r.userId = u → r.status = SearchStatus.searching →
      SearchService.cancelSearch u db =
        (some { r with status := SearchStatus.cancelled },
         { db with searches := l1 ++ { r with status := SearchStatus.cancelled } :: l2 })) ∧
    ((∀ r ∈ db.searches, r.userId = u → r.status = SearchStatus.matched) →
      SearchService.cancelSearch u db = (none, db)) := by
  refine ⟨?_, ?_, ?_, ?_⟩
  · intro h
    unfold SearchService.cancelSearch
    rw [cancelFirstAux_none u db.searches h]
  · intro hinv
    have h2 := cancelFirst_no_more u db.searches hinv
    rw [cancelSearch_eq u (SearchService.cancelSearch u db).2]
    have hs : (SearchService.cancelSearch u db).2.searches =
        SearchService.cancelFirstSearching u db.searches := rfl
    rw [hs, cancelFirstAux_none u _ h2]
    rfl
  · intro l1 r l2 hsp h1 hu hs
    unfold SearchService.cancelSearch
    rw [hsp, cancelFirstAux_found u l1 r l2 h1 hu hs]
  · intro h
    unfold SearchService.cancelSearch
    rw [cancelFirstAux_none u db.searches (fun r hr => by
      rintro ⟨hru, hrs⟩
      rw [h r hr hru] at hrs
      exact absurd hrs (by simp))]

/-- Witness for C6: cancelling user 2 in the store holding one searching
record cancels it, and a second call is a no-op. -/
theorem cancelSearch_cancels_first_and_idempotent_witness :
    UniqueSearching dbWithCand.searches ∧
    SearchService.cancelSearch 2 dbWithCand =
      (some { candRec with status := SearchStatus.cancelled },
       { dbWithCand with
          searches := [{ candRec with status := SearchStatus.cancelled }] }) ∧
    SearchService.cancelSearch 2 (SearchService.cancelSearch 2 dbWithCand).2 =
      (none, (SearchService.cancelSearch 2 dbWithCand).2) :=
  ⟨by decide,
    (cancelSearch_cancels_first_and_idempotent dbWithCand 2).2.2.1
      [] candRec [] rfl (by simp) rfl rfl,
    (cancelSearch_cancels_first_and_idempotent dbWithCand 2).2.1 (by decide)⟩

lemma genders_mem_iff (s : SearchRec) (g : Gender) :
    g ∈ SearchService.gendersToMatch s.desiredGender ↔ inDesiredSet s g := by
  unfold SearchService.gendersToMatch inDesiredSet
  by_cases h : DesiredGender.any ∈ s.desiredGender
  · rw [if_pos h, if_pos h]
    cases g <;> simp
  · rw [if_neg h, if_neg h]
    rw [List.mem_filterMap]
    constructor
    · rintro ⟨a, ha, hfa⟩
      cases a <;> cases g <;> simp_all [DesiredGender.ofGender]
    · intro hg
      exact ⟨DesiredGender.ofGender g, hg, by cases g <;> rfl⟩

lemma ratingCriteria_iff (s p : SearchRec) :
    ((if s.minAcceptableRating > -1 then decide (s.minAcceptableRating ≤ p.rating)
      else true) = true) ↔
      (s.minAcceptableRating > -1 → s.minAcceptableRating ≤ p.rating) := by
  by_cases h : s.minAcceptableRating > -1 <;> simp [h]

lemma geoCriteria_iff (dist : DistFn) (s p : SearchRec)
    (hloc : s.useGeolocation = true → s.location.isSome)
    (hmd : s.maxDistance ≠ some 0) :
    SearchService.geoCriteria dist s p = true ↔
      (s.useGeolocation = true →
        p.useGeolocation = true ∧
        ∃ l pl, s.location = some l ∧ p.location = some pl ∧
          dist l pl / 1000 ≤ s.maxDistance.getD 10) := by
  have heff : SearchService.effectiveMaxDistance s.maxDistance = s.maxDistance.getD 10 := by
    cases hm : s.maxDistance with
    | none => rfl
    | some d =>
      have hd : ¬ d = 0 := fun h => hmd (by rw [hm, h])
      simp [SearchService.effectiveMaxDistance, hd]
  unfold SearchService.geoCriteria
  cases hg : s.useGeolocation with
  | false => simp
  | true =>
    obtain ⟨l, hl⟩ := Option.isSome_iff_exists.mp (hloc hg)
    rw [hl]
    cases hp : p.location with
    | none => simp [hl]
    | some pl =>
      simp only [hl, hp, Bool.and_eq_true, decide_eq_true_eq, if_true, heff,
        Option.some.injEq, true_implies]
      constructor
      · rintro ⟨h1, h2⟩
        refine ⟨h1, l, pl, rfl, rfl, ?_⟩
        rw [div_le_iff₀ (by norm_num : (0:ℚ) < 1000)]
        exact h2
      · rintro ⟨h1, l2, pl2, hl2, hpl2, h2⟩
        cases hl2
        cases hpl2
        rw [div_le_iff₀ (by norm_num : (0:ℚ) < 1000)] at h2
        exact ⟨h1, h2⟩

lemma matchesCriteria_iff (dist : DistFn) (s p : SearchRec)
    (hloc : s.useGeolocation = true → s.location.isSome)
    (hmd : s.maxDistance ≠ some 0) :
    SearchService.matchesCriteria dist s p = true ↔ SpecCandidate dist s p := by
  unfold SearchService.matchesCriteria
  simp only [Bool.and_eq_true, Bool.or_eq_true, decide_eq_true_eq,
    genders_mem_iff s p.gender, ratingCriteria_iff s p,
    geoCriteria_iff dist s p hloc hmd]
  unfold SpecCandidate
  tauto

/-- C1: membership in the result of `findMatches` coincides with the
specification's candidate predicate — searching status, distinct user,
mutual gender desire with `any` treated as universal, mutual age
windows, the rating threshold when set, and the geographic bound with
default 10 km when the searcher uses geolocation — given the data-model
invariants that a geolocated search carries a location and the distance
bound is never the excluded zero. -/
theorem findMatches_mem_iff (dist : DistFn) (st : List SearchRec) (s p : SearchRec)
    (hloc : s.useGeolocation = true → s.location.isSome)
    (hmd : s.maxDistance ≠ some 0) :
    p ∈ SearchService.findMatches dist st s ↔ p ∈ st ∧ SpecCandidate dist s p := by
  rw [SearchService.findMatches, List.mem_filter,
    matchesCriteria_iff dist s p hloc hmd]

/-- Witness for C1: the concrete searching female candidate is returned
for the concrete male searcher. -/
theorem findMatches_mem_iff_witness :
    (tieSearcher.useGeolocation = true → tieSearcher.location.isSome) ∧
    tieSearcher.maxDistance ≠ some 0 ∧
    candRec ∈ SearchService.findMatches distZero [candRec] tieSearcher ∧
    (candRec ∈ SearchService.findMatches distZero [candRec] tieSearcher ↔
      candRec ∈ [candRec] ∧ SpecCandidate distZero tieSearcher candRec) :=
  ⟨by decide, by decide, by decide,
    findMatches_mem_iff distZero [candRec] tieSearcher candRec (by decide) (by decide)⟩

lemma foldl_selectStep_spec (dist : DistFn) (s : SearchRec) :
    ∀ (l : List SearchRec) (b : SearchRec),
      (l.foldl (SearchService.selectStep dist s) b = b ∧
        ∀ m ∈ l, SearchService.calculateMatchScore dist s m ≤
          SearchService.calculateMatchScore dist s b) ∨
      (SearchService.calculateMatchScore dist s b <
        SearchService.calculateMatchScore dist s
          (l.foldl (SearchService.selectStep dist s) b) ∧
        ∃ i, l.get? i = some (l.foldl (SearchService.selectStep dist s) b) ∧
          (∀ j m, j < i → l.get? j = some m →
            SearchService.calculateMatchScore dist s m <
            SearchService.calculateMatchScore dist s
              (l.foldl (SearchService.selectStep dist s) b)) ∧
          ∀ m ∈ l, SearchService.calculateMatchScore dist s m ≤
            SearchService.calculateMatchScore dist s
              (l.foldl (SearchService.selectStep dist s) b)) := by
  intro l
  induction l with
  | nil =>
    intro b
    left
    exact ⟨rfl, by simp⟩
  | cons x l ih =>
    intro b
    rw [List.foldl_cons]
    by_cases hx : SearchService.calculateMatchScore dist s b <
        SearchService.calculateMatchScore dist s x
    · have hstep : SearchService.selectStep dist s b x = x :=
        if_pos hx
      rw [hstep]
      rcases ih x with ⟨heq, hall⟩ | ⟨hlt, i, hi, hbefore, hall⟩
      · right
        rw [heq]
        refine ⟨hx, 0, rfl, ?_, ?_⟩
        · intro j m hj _
          exact absurd hj (Nat.not_lt_zero j)
        · intro m hm
          rcases List.mem_cons.mp hm with h1 | h1
          · rw [h1]
          · exact hall m h1
      · right
        refine ⟨lt_trans hx hlt, i + 1, by simpa using hi, ?_, ?_⟩
        · intro j m hj hm
          cases j with
          | zero =>
            have hxm : x = m := by simpa using hm
            rw [← hxm]
            exact hlt
          | succ j2 =>
            exact hbefore j2 m (by omega) (by simpa using hm)
        · intro m hm
          rcases List.mem_cons.mp hm with h1 | h1
          · rw [h1]
            exact le_of_lt hlt
          · exact hall m h1
    · have hstep : SearchService.selectStep dist s b x = b :=
        if_neg hx
      rw [hstep]
      rcases ih b with ⟨heq, hall⟩ | ⟨hlt, i, hi, hbefore, hall⟩
      · left
        rw [heq]
        refine ⟨rfl, ?_⟩
        intro m hm
        rcases List.mem_cons.mp hm with h1 | h1
        · rw [h1]
          exact not_lt.mp hx
        · exact hall m h1
      · right
        refine ⟨hlt, i + 1, by simpa using hi, ?_, ?_⟩
        · intro j m hj hm
          cases j with
          | zero =>
            have hxm : x = m := by simpa using hm
            rw [← hxm]
            exact lt_of_le_of_lt (not_lt.mp hx) hlt
          | succ j2 =>
            exact hbefore j2 m (by omega) (by simpa using hm)
        · intro m hm
          rcases List.mem_cons.mp hm with h1 | h1
          · rw [h1]
            exact le_of_lt (lt_of_le_of_lt (not_lt.mp hx) hlt)
          · exact hall m h1

lemma selectBestMatch_cons (dist : DistFn) (s x : SearchRec) (l : List SearchRec) :
    SearchService.selectBestMatch dist s (x :: l) =
      some (l.foldl (SearchService.selectStep dist s) x) := by
  rw [SearchService.selectBestMatch, List.foldl_cons,
    show SearchService.selectStep dist s x x = x from if_neg (lt_irrefl _)]

lemma calculateMatchScore_eq_spec (dist : DistFn) (s p : SearchRec)
    (hs : s.useGeolocation = true → s.location.isSome)
    (hp : p.useGeolocation = true → p.location.isSome) :
    SearchService.calculateMatchScore dist s p = specMatchScore dist s p := by
  unfold SearchService.calculateMatchScore specMatchScore SearchService.geoScore
  congr 1
  by_cases hsg : s.useGeolocation = true
  · obtain ⟨l, hl⟩ := Option.isSome_iff_exists.mp (hs hsg)
    by_cases hpg : p.useGeolocation = true
    · obtain ⟨pl, hpl⟩ := Option.isSome_iff_exists.mp (hp hpg)
      simp [hl, hpl, hsg, hpg]
    · have hpf : p.useGeolocation = false := by simpa using hpg
      cases hploc : p.location <;> simp [hl, hpf, hsg]
  · have hsf : s.useGeolocation = false := by simpa using hsg
    cases hsloc : s.location <;> cases hploc : p.location <;> simp [hsf]

lemma calculateMatchScore_bounds (dist : DistFn) (hd : ∀ a b, 0 ≤ dist a b)
    (s p : SearchRec) :
    0 ≤ SearchService.calculateMatchScore dist s p ∧
    SearchService.calculateMatchScore dist s p ≤ 100 := by
  unfold SearchService.calculateMatchScore
  have h1a : (0:ℚ) ≤ max 0 (40 - 2 * |s.rating - p.rating|) := le_max_left _ _
  have h1b : max 0 (40 - 2 * |s.rating - p.rating|) ≤ 40 :=
    max_le (by norm_num) (by nlinarith [abs_nonneg (s.rating - p.rating)])
  have h2a : (0:ℚ) ≤ max 0 (30 - 2 * |s.age - p.age|) := le_max_left _ _
  have h2b : max 0 (30 - 2 * |s.age - p.age|) ≤ 30 :=
    max_le (by norm_num) (by nlinarith [abs_nonneg (s.age - p.age)])
  have h3 : 0 ≤ SearchService.geoScore dist s p ∧
      SearchService.geoScore dist s p ≤ 30 := by
    unfold SearchService.geoScore
    split
    · split
      · refine ⟨le_max_left _ _, max_le (by norm_num) ?_⟩
        rw [sub_le_self_iff]
        exact div_nonneg (hd _ _) (by norm_num)
      · exact ⟨le_refl 0, by norm_num⟩
    · exact ⟨le_refl 0, by norm_num⟩
  constructor
  · have := h3.1
    linarith
  · have := h3.2
    linarith

lemma score_tieNewer :
    SearchService.calculateMatchScore distZero tieSearcher tieNewer = 68 := by
  norm_num [SearchService.calculateMatchScore, SearchService.geoScore,
    tieSearcher, tieNewer, candRec, critMale, SearchService.mkSearchRec, distZero]

lemma score_tieOlder :
    SearchService.calculateMatchScore distZero tieSearcher tieOlder = 68 := by
  norm_num [SearchService.calculateMatchScore, SearchService.geoScore,
    tieSearcher, tieOlder, candRec, critMale, SearchService.mkSearchRec, distZero]

/-- Counterexample for C4: two candidates with equal scores where the
older record appears second in the candidate list; `selectBestMatch`
returns the first-listed, newer record, so ties are not broken in
favour of the oldest `createdAt`. -/
theorem selectBestMatch_tie_not_oldest_cex :
    SearchService.calculateMatchScore distZero tieSearcher tieNewer =
      SearchService.calculateMatchScore distZero tieSearcher tieOlder ∧
    tieOlder.createdAt < tieNewer.createdAt ∧
    SearchService.selectBestMatch distZero tieSearcher [tieNewer, tieOlder] =
      some tieNewer ∧
    tieNewer ≠ tieOlder := by
  refine ⟨by rw [score_tieNewer, score_tieOlder], by decide, ?_, by decide⟩
  rw [selectBestMatch_cons]
  simp only [List.foldl_cons, List.foldl_nil]
  unfold SearchService.selectStep
  rw [score_tieNewer, score_tieOlder, if_neg (lt_irrefl (68 : ℚ))]

/-- C4 amended: the match score equals the specification's formula (for
records satisfying the location-presence invariant), lies in the range
0 to 100 when distances are non-negative, and `selectBestMatch` returns
the candidate of maximal score occurring earliest in the candidate list
(ties are broken by list position, not by `createdAt`). -/
theorem matchScore_formula_bounds_and_selection (dist : DistFn)
    (hd : ∀ a b, 0 ≤ dist a b) (s : SearchRec) :
    (∀ p, (s.useGeolocation = true → s.location.isSome) →
      (p.useGeolocation = true → p.location.isSome) →
      SearchService.calculateMatchScore dist s p = specMatchScore dist s p) ∧
    (∀ p, 0 ≤ SearchService.calculateMatchScore dist s p ∧
      SearchService.calculateMatchScore dist s p ≤ 100) ∧
    (∀ cands b, SearchService.selectBestMatch dist s cands = some b →
      b ∈ cands ∧
      (∀ m ∈ cands, SearchService.calculateMatchScore dist s m ≤
        SearchService.calculateMatchScore dist s b) ∧
      ∃ i, cands.get? i = some b ∧
        ∀ j m, j < i → cands.get? j = some m →
          SearchService.calculateMatchScore dist s m <
          SearchService.calculateMatchScore dist s b) := by
  refine ⟨fun p => calculateMatchScore_eq_spec dist s p,
    fun p => calculateMatchScore_bounds dist hd s p, ?_⟩
  intro cands b hsel
  cases cands with
  | nil => exact absurd hsel (by simp [SearchService.selectBestMatch])
  | cons x l =>
    rw [selectBestMatch_cons] at hsel
    have hb : l.foldl (SearchService.selectStep dist s) x = b := Option.some.inj hsel
    rcases foldl_selectStep_spec dist s l x with ⟨heq, hall⟩ | ⟨hlt, i, hi, hbefore, hall⟩
    · have hbx : b = x := by rw [← hb, heq]
      refine ⟨by rw [hbx]; exact List.mem_cons_self x l, ?_, 0, by rw [hbx]; rfl, ?_⟩
      · intro m hm
        rcases List.mem_cons.mp hm with h1 | h1
        · rw [h1, hbx]
        · rw [hbx]
          exact hall m h1
      · intro j m hj _
        exact absurd hj (Nat.not_lt_zero j)
    · rw [hb] at hlt hi hbefore hall
      refine ⟨List.mem_cons_of_mem x (List.get?_mem hi), ?_, i + 1, by simpa using hi, ?_⟩
      · intro m hm
        rcases List.mem_cons.mp hm with h1 | h1
        · rw [h1]
          exact le_of_lt hlt
        · exact hall m h1
      · intro j m hj hm
        cases j with
        | zero =>
          have hxm : x = m := by simpa using hm
          rw [← hxm]
          exact hlt
        | succ j2 =>
          exact hbefore j2 m (by omega) (by simpa using hm)

/-- Witness for C4 amended: concrete bounds for the concrete searcher
and candidate, and the selection facts for the one-element candidate
list. -/
theorem matchScore_formula_bounds_and_selection_witness :
    (0 ≤ SearchService.calculateMatchScore distZero tieSearcher candRec ∧
      SearchService.calculateMatchScore distZero tieSearcher candRec ≤ 100) ∧
    (candRec ∈ [candRec] ∧
      (∀ m ∈ [candRec], SearchService.calculateMatchScore distZero tieSearcher m ≤
        SearchService.calculateMatchScore distZero tieSearcher candRec) ∧
      ∃ i, [candRec].get? i = some candRec ∧
        ∀ j m, j < i → [candRec].get? j = some m →
          SearchService.calculateMatchScore distZero tieSearcher m <
          SearchService.calculateMatchScore distZero tieSearcher candRec) :=
  ⟨(matchScore_formula_bounds_and_selection distZero (fun _ _ => le_rfl)
      tieSearcher).2.1 candRec,
    (matchScore_formula_bounds_and_selection distZero (fun _ _ => le_rfl)
      tieSearcher).2.2 [candRec] candRec (by rw [selectBestMatch_cons]; rfl)⟩

lemma startSearch_snd (dist : DistFn) (db : DB) (newId now u : Nat) (tg : String)
    (c : SearchCriteria) :
    (SearchService.startSearch dist db newId now u tg c).2 =
      (match SearchService.selectBestMatch dist (SearchService.mkSearchRec newId now u tg c)
          (SearchService.findMatches dist
            (SearchService.cancelFirstSearching u db.searches ++
              [SearchService.mkSearchRec newId now u tg c])
            (SearchService.mkSearchRec newId now u tg c)) with
        | some best =>
          SearchService.createMatch
            { db with searches := SearchService.cancelFirstSearching u db.searches ++
                [SearchService.mkSearchRec newId now u tg c] }
            (SearchService.mkSearchRec newId now u tg c) best
        | none =>
          { db with searches := SearchService.cancelFirstSearching u db.searches ++
              [SearchService.mkSearchRec newId now u tg c] }) := rfl

/-- C2 (code bug evaluation): starting a search for user 1 against the
store holding the compatible candidate of user 2 creates the match in
the store — the new record of user 1 and the candidate's record both
become `matched` with populated `matchedWith`, and the linking chat is
created — yet the returned `SearchResult` still carries
`status = searching` and no `matchedWith`, because it is built from the
stale local record object. -/
theorem startSearch_returns_stale_result :
    (SearchService.startSearch distZero dbWithCand 2 1 1 "t1" critMale).1.status =
      SearchStatus.searching ∧
    (SearchService.startSearch distZero dbWithCand 2 1 1 "t1" critMale).1.matchedWith =
      none ∧
    (∃ q ∈ (SearchService.startSearch distZero dbWithCand 2 1 1 "t1" critMale).2.searches,
      q.id = 2 ∧ q.userId = 1 ∧ q.status = SearchStatus.matched ∧
      q.matchedWith = some ⟨2, "t2", 50⟩) ∧
    (∃ q ∈ (SearchService.startSearch distZero dbWithCand 2 1 1 "t1" critMale).2.searches,
      q.id = 1 ∧ q.userId = 2 ∧ q.status = SearchStatus.matched ∧
      q.matchedWith = some ⟨1, "t1", 50⟩) ∧
    (∃ ch ∈ (SearchService.startSearch distZero dbWithCand 2 1 1 "t1" critMale).2.chats,
      ch.participants = [1, 2] ∧ ch.isActive = true) := by
  have e2 : SearchService.findMatches distZero
      (SearchService.cancelFirstSearching 1 dbWithCand.searches ++
        [SearchService.mkSearchRec 2 1 1 "t1" critMale])
      (SearchService.mkSearchRec 2 1 1 "t1" critMale) = [candRec] := by decide
  have e3 : SearchService.selectBestMatch distZero
      (SearchService.mkSearchRec 2 1 1 "t1" critMale) [candRec] = some candRec := by
    rw [selectBestMatch_cons]
    rfl
  refine ⟨rfl, rfl, ?_, ?_, ?_⟩ <;>
    rw [startSearch_snd, e2, e3] <;> decide

lemma mem_cancelFirst (u : Nat) (rs : List SearchRec) :
    ∀ b ∈ SearchService.cancelFirstSearching u rs,
      ∃ b0 ∈ rs, b0.userId = b.userId ∧
        (b.status = SearchStatus.searching → b0.status = SearchStatus.searching) := by
  induction rs with
  | nil =>
    intro b hb
    exact absurd hb (by simp [SearchService.cancelFirstSearching,
      SearchService.cancelFirstSearchingAux])
  | cons r rs ih =>
    intro b hb
    by_cases hc : r.userId = u ∧ r.status = SearchStatus.searching
    · rw [SearchService.cancelFirstSearching,
        SearchService.cancelFirstSearchingAux, if_pos hc] at hb
      rcases List.mem_cons.mp hb with hb1 | hb1
    -- the head became the cancelled copy of the head record
      · refine ⟨r, List.mem_cons_self r rs, by rw [hb1], ?_⟩
        intro hs
        rw [hb1] at hs
        exact absurd hs (by simp)
      · exact ⟨b, List.mem_cons_of_mem r hb1, rfl, fun h => h⟩
    · rw [SearchService.cancelFirstSearching,
        SearchService.cancelFirstSearchingAux, if_neg hc] at hb
      rcases List.mem_cons.mp hb with hb1 | hb1
      · exact ⟨r, List.mem_cons_self r rs, by rw [hb1], by rw [hb1]; exact fun h => h⟩
      · obtain ⟨b0, hb0, h1, h2⟩ := ih b hb1
        exact ⟨b0, List.mem_cons_of_mem r hb0, h1, h2⟩

lemma unique_cancelFirst (u : Nat) :
    ∀ rs, UniqueSearching rs →
      UniqueSearching (SearchService.cancelFirstSearching u rs) := by
  intro rs
  induction rs with
  | nil =>
    intro _
    unfold UniqueSearching
    simp [SearchService.cancelFirstSearching, SearchService.cancelFirstSearchingAux]
  | cons r rs ih =>
    intro h
    unfold UniqueSearching at h ⊢
    rcases List.pairwise_cons.mp h with ⟨hrel, htail⟩
    by_cases hc : r.userId = u ∧ r.status = SearchStatus.searching
    · rw [SearchService.cancelFirstSearching,
        SearchService.cancelFirstSearchingAux, if_pos hc]
      refine List.pairwise_cons.mpr ⟨?_, htail⟩
      intro b _
      rintro ⟨_, hs1, _⟩
      exact absurd hs1 (by simp)
    · rw [SearchService.cancelFirstSearching,
        SearchService.cancelFirstSearchingAux, if_neg hc]
      refine List.pairwise_cons.mpr ⟨?_, ih htail⟩
      intro b hb
      obtain ⟨b0, hb0, hub, hsb⟩ := mem_cancelFirst u rs b hb
      rintro ⟨hu, hs1, hs2⟩
      exact hrel b0 hb0 ⟨by rw [hub]; exact hu, hs1, hsb hs2⟩

lemma unique_append_new (rs : List SearchRec) (rec : SearchRec)
    (h : UniqueSearching rs)
    (hno : ∀ b ∈ rs, ¬(b.userId = rec.userId ∧ b.status = SearchStatus.searching)) :
    UniqueSearching (rs ++ [rec]) := by
  unfold UniqueSearching at h ⊢
  rw [List.pairwise_append]
  refine ⟨h, List.pairwise_singleton _ _, ?_⟩
  intro a ha b hb
  rw [List.mem_singleton.mp hb]
  rintro ⟨hu, hs1, _⟩
  exact hno a ha ⟨hu, hs1⟩

lemma unique_map_status (f : SearchRec → SearchRec)
    (hu : ∀ r, (f r).userId = r.userId)
    (hs : ∀ r, (f r).status = SearchStatus.searching →
      r.status = SearchStatus.searching)
    (rs : List SearchRec) (h : UniqueSearching rs) :
    UniqueSearching (rs.map f) := by
  unfold UniqueSearching at h ⊢
  refine List.Pairwise.map f ?_ h
  intro a b hab
  rintro ⟨h1, h2, h3⟩
  exact hab ⟨by rw [← hu a, ← hu b]; exact h1, hs a h2, hs b h3⟩

lemma unique_updateById_setMatched (i : Nat) (other : SearchRec) (cid : Nat)
    (rs : List SearchRec) (h : UniqueSearching rs) :
    UniqueSearching (SearchService.updateById i (SearchService.setMatched other cid) rs) := by
  unfold SearchService.updateById
  apply unique_map_status _ ?_ ?_ rs h
  · intro r
    by_cases hr : r.id = i <;> simp [hr, SearchService.setMatched]
  · intro r hrs
    by_cases hr : r.id = i
    · rw [if_pos hr] at hrs
      exact absurd hrs (by simp [SearchService.setMatched])
    · rw [if_neg hr] at hrs
      exact hrs

lemma unique_createMatch (db : DB) (s1 s2 : SearchRec)
    (h : UniqueSearching db.searches) :
    UniqueSearching (SearchService.createMatch db s1 s2).searches :=
  unique_updateById_setMatched _ _ _ _ (unique_updateById_setMatched _ _ _ _ h)

lemma unique_startSearch (dist : DistFn) (db : DB) (newId now u : Nat) (tg : String)
    (c : SearchCriteria) (h : UniqueSearching db.searches) :
    UniqueSearching ((SearchService.startSearch dist db newId now u tg c).2.searches) := by
  have h1 : UniqueSearching (SearchService.cancelFirstSearching u db.searches) :=
    unique_cancelFirst u db.searches h
  have h2 : UniqueSearching (SearchService.cancelFirstSearching u db.searches ++
      [SearchService.mkSearchRec newId now u tg c]) := by
    apply unique_append_new _ _ h1
    intro b hb
    have hno := cancelFirst_no_more u db.searches h b hb
    simpa [SearchService.mkSearchRec] using hno
  rw [startSearch_snd]
  cases hsel : SearchService.selectBestMatch dist (SearchService.mkSearchRec newId now u tg c)
      (SearchService.findMatches dist
        (SearchService.cancelFirstSearching u db.searches ++
          [SearchService.mkSearchRec newId now u tg c])
        (SearchService.mkSearchRec newId now u tg c)) with
  | none => exact h2
  | some best =>
    exact unique_createMatch
      { db with searches := SearchService.cancelFirstSearching u db.searches ++
          [SearchService.mkSearchRec newId now u tg c] } _ best h2

lemma rollbackMatch_eq_map (i1 i2 : Nat) (rs : List SearchRec) :
    SearchService.rollbackMatch i1 i2 rs = rs.map (SearchService.rollbackOne i1 i2) := by
  unfold SearchService.rollbackMatch SearchService.updateById
  rw [List.map_map]
  rfl

lemma rollbackOne_userId (i1 i2 : Nat) (r : SearchRec) :
    (SearchService.rollbackOne i1 i2 r).userId = r.userId := by
  unfold SearchService.rollbackOne SearchService.resetSearching
  split_ifs <;> rfl

lemma rollbackOne_status (i1 i2 : Nat) (r : SearchRec) :
    (SearchService.rollbackOne i1 i2 r).status = SearchStatus.searching ↔
      (r.id = i1 ∨ r.id = i2 ∨ r.status = SearchStatus.searching) := by
  unfold SearchService.rollbackOne SearchService.resetSearching
  split_ifs with h1 h2 h3 <;> simp_all

lemma unique_rollback (i1 i2 u1 u2 : Nat) (hu12 : u1 ≠ u2) :
    ∀ rs : List SearchRec,
      (∀ r ∈ rs, r.id = i1 → r.userId = u1) →
      (∀ r ∈ rs, r.id = i2 → r.userId = u2) →
      (∀ r ∈ rs, r.status = SearchStatus.searching → r.userId = u1 → r.id = i1) →
      (∀ r ∈ rs, r.status = SearchStatus.searching → r.userId = u2 → r.id = i2) →
      List.Pairwise (fun a b => a.id ≠ b.id) rs →
      UniqueSearching rs →
      UniqueSearching (SearchService.rollbackMatch i1 i2 rs) := by
  intro rs
  induction rs with
  | nil =>
    intro _ _ _ _ _ _
    rw [rollbackMatch_eq_map]
    exact List.Pairwise.nil
  | cons r rs ih =>
    intro h1 h2 h3 h4 hids hinv
    unfold UniqueSearching at hinv ⊢
    rcases List.pairwise_cons.mp hids with ⟨hidrel, hidtail⟩
    rcases List.pairwise_cons.mp hinv with ⟨hrel, htail⟩
    rw [rollbackMatch_eq_map, List.map_cons]
    refine List.pairwise_cons.mpr ⟨?_, ?_⟩
    · intro b hb
      obtain ⟨b0, hb0, rfl⟩ := List.mem_map.mp hb
      rintro ⟨huid, hs1, hs2⟩
      have hru : r.userId = b0.userId := by
        rw [← rollbackOne_userId i1 i2 r, ← rollbackOne_userId i1 i2 b0]
        exact huid
      rcases (rollbackOne_status i1 i2 r).mp hs1 with hr1 | hr2 | hr3
      · have hruid : r.userId = u1 := h1 r (List.mem_cons_self r rs) hr1
        rcases (rollbackOne_status i1 i2 b0).mp hs2 with hb1 | hb2 | hb3
        · exact hidrel b0 hb0 (hr1.trans hb1.symm)
        · have hbu := h2 b0 (List.mem_cons_of_mem r hb0) hb2
          exact hu12 (by rw [← hruid, hru, hbu])
        · have hbu : b0.userId = u1 := by rw [← hru, hruid]
          have hbid := h3 b0 (List.mem_cons_of_mem r hb0) hb3 hbu
          exact hidrel b0 hb0 (hr1.trans hbid.symm)
      · have hruid : r.userId = u2 := h2 r (List.mem_cons_self r rs) hr2
        rcases (rollbackOne_status i1 i2 b0).mp hs2 with hb1 | hb2 | hb3
        · have hbu := h1 b0 (List.mem_cons_of_mem r hb0) hb1
          exact hu12 (by rw [← hbu, ← hru, hruid])
        · exact hidrel b0 hb0 (hr2.trans hb2.symm)
        · have hbu : b0.userId = u2 := by rw [← hru, hruid]
          have hbid := h4 b0 (List.mem_cons_of_mem r hb0) hb3 hbu
          exact hidrel b0 hb0 (hr2.trans hbid.symm)
      · rcases (rollbackOne_status i1 i2 b0).mp hs2 with hb1 | hb2 | hb3
        · have hbu := h1 b0 (List.mem_cons_of_mem r hb0) hb1
          have hrid := h3 r (List.mem_cons_self r rs) hr3 (by rw [hru, hbu])
          exact hidrel b0 hb0 (hrid.trans hb1.symm)
        · have hbu := h2 b0 (List.mem_cons_of_mem r hb0) hb2
          have hrid := h4 r (List.mem_cons_self r rs) hr3 (by rw [hru, hbu])
          exact hidrel b0 hb0 (hrid.trans hb2.symm)
        · exact hrel b0 hb0 ⟨hru, hr3, hb3⟩
    · rw [← rollbackMatch_eq_map]
      exact ih (fun q hq => h1 q (List.mem_cons_of_mem r hq))
        (fun q hq => h2 q (List.mem_cons_of_mem r hq))
        (fun q hq => h3 q (List.mem_cons_of_mem r hq))
        (fun q hq => h4 q (List.mem_cons_of_mem r hq))
        hidtail htail

lemma unique_expire (now : Nat) (rs : List SearchRec) (h : UniqueSearching rs) :
    UniqueSearching (SearchService.expireSearches now rs) := by
  unfold UniqueSearching at h ⊢
  exact List.Pairwise.sublist (List.filter_sublist rs) h

/-- C3: every matcher operation — `startSearch` with its
cancel-then-insert prelude and possible match creation, `cancelSearch`,
the `createMatch` commit, the `createMatch` rollback (under the
well-formedness facts holding at its call site), and TTL expiry —
preserves the invariant that each user has at most one `searching`
record. -/
theorem matcher_preserves_unique_searching :
    (∀ (dist : DistFn) (db : DB) (newId now u : Nat) (tg : String) (c : SearchCriteria),
      UniqueSearching db.searches →
      UniqueSearching ((SearchService.startSearch dist db newId now u tg c).2.searches)) ∧
    (∀ (u : Nat) (db : DB), UniqueSearching db.searches →
      UniqueSearching ((SearchService.cancelSearch u db).2.searches)) ∧
    (∀ (db : DB) (s1 s2 : SearchRec), UniqueSearching db.searches →
      UniqueSearching ((SearchService.createMatch db s1 s2).searches)) ∧
    (∀ (i1 i2 u1 u2 : Nat) (rs : List SearchRec), u1 ≠ u2 →
      (∀ r ∈ rs, r.id = i1 → r.userId = u1) →
      (∀ r ∈ rs, r.id = i2 → r.userId = u2) →
      (∀ r ∈ rs, r.status = SearchStatus.searching → r.userId = u1 → r.id = i1) →
      (∀ r ∈ rs, r.status = SearchStatus.searching → r.userId = u2 → r.id = i2) →
      List.Pairwise (fun a b => a.id ≠ b.id) rs →
      UniqueSearching rs →
      UniqueSearching (SearchService.rollbackMatch i1 i2 rs)) ∧
    (∀ (now : Nat) (rs : List SearchRec), UniqueSearching rs →
      UniqueSearching (SearchService.expireSearches now rs)) :=
  ⟨fun dist db newId now u tg c h => unique_startSearch dist db newId now u tg c h,
   fun u db h => unique_cancelFirst u db.searches h,
   fun db s1 s2 h => unique_createMatch db s1 s2 h,
   fun i1 i2 u1 u2 rs hu12 h1 h2 h3 h4 hids hinv =>
     unique_rollback i1 i2 u1 u2 hu12 rs h1 h2 h3 h4 hids hinv,
   fun now rs h => unique_expire now rs h⟩

/-- Witness for C3: the invariant holds before and after each concrete
operation on the one-record stores. -/
theorem matcher_preserves_unique_searching_witness :
    UniqueSearching dbWithCand.searches ∧
    UniqueSearching ((SearchService.startSearch distZero dbWithCand 2 1 1 "t1"
      critMale).2.searches) ∧
    UniqueSearching ((SearchService.cancelSearch 2 dbWithCand).2.searches) ∧
    UniqueSearching ((SearchService.createMatch dbWithCand candRec tieSearcher).searches) ∧
    UniqueSearching (SearchService.rollbackMatch 1 2 dbMatched.searches) ∧
    UniqueSearching (SearchService.expireSearches 2000 dbWithCand.searches) :=
  ⟨by decide,
   matcher_preserves_unique_searching.1 distZero dbWithCand 2 1 1 "t1" critMale (by decide),
   matcher_preserves_unique_searching.2.1 2 dbWithCand (by decide),
   matcher_preserves_unique_searching.2.2.1 dbWithCand candRec tieSearcher (by decide),
   matcher_preserves_unique_searching.2.2.2.1 1 2 5 6 dbMatched.searches (by decide)
     (by decide) (by decide) (by decide) (by decide) (by decide) (by decide),
   matcher_preserves_unique_searching.2.2.2.2 2000 dbWithCand.searches (by decide)⟩
